import Mathlib

/-
  Verification development for the player combat-and-locomotion state machine
  of the martial-magicka game (Rust/Bevy source under src/).

  The player state machine (src/player/state.rs, src/player/states/*.rs), the
  per-tick systems (src/player/systems.rs) and the combat pipeline
  (src/main.rs) are shallowly embedded here.  Rust f32 scalars are modelled as
  rationals (the game logic uses them only through arithmetic and comparisons,
  never through rounding-sensitive operations), Bevy entity ids as naturals,
  and Bevy timers as an elapsed/duration pair.  Systems become pure functions
  from their read set to their write set; the `Changed<PlayerState>` query
  filter becomes an explicit `changed` flag threaded through the tick.
-/

namespace MartialMagicka

/-- The sixteen player state variants of `PlayerState` / `PlayerStateType`
(src/player/state.rs, src/player/config.rs).  Every variant's payload struct in
the source is a fieldless marker, so the tag enum carries all information. -/
inductive PlayerStateType where
  | idle
  | idleToWalk
  | idleToRun
  | walk
  | run
  | jump
  | fall
  | land
  | punch
  | punchCombo
  | kick
  | kickCombo
  | punchKickCombo
  | jumpPunch
  | jumpKick
  | defeat
deriving DecidableEq, Repr

/-- `StateTransition` from src/player/config.rs: no transition, an immediate
transition, or a request to queue a combo follow-up. -/
inductive StateTransition where
  | none
  | to (target : PlayerStateType)
  | queueCombo (target : PlayerStateType)
deriving DecidableEq, Repr

/-- `InputContext` from src/player/config.rs, as built by
`player_input_system`: held flags for A/D/shift, just-pressed flags for
space/up/down, the one-aerial-attack-per-jump guard, and the current animation
frame information. -/
structure InputContext where
  left : Bool
  right : Bool
  shift : Bool
  space : Bool
  up_arrow : Bool
  down_arrow : Bool
  has_used_aerial_attack : Bool
  current_frame : Nat
  total_frames : Nat
deriving DecidableEq, Repr

/-- `UpdateContext` from src/player/config.rs, as built by
`player_state_update_system`. -/
structure UpdateContext where
  animation_finished : Bool
  is_at_ground : Bool
  velocity_y : ℚ
deriving DecidableEq, Repr

/-- `PhysicsConfig` from src/player/config.rs. -/
structure PhysicsConfig where
  ground_speed : ℚ
  air_control : Bool
  apply_gravity : Bool
  locks_movement : Bool
deriving DecidableEq, Repr

/-- Shared body of `handle_input` for the four movement states
IdleToWalk/IdleToRun/Walk/Run (src/player/states/movement.rs); the four
implementations in the source are textually identical. -/
def movement_handle_input (input : InputContext) : StateTransition :=
  if input.up_arrow then .to .punch
  else if input.down_arrow then .to .kick
  else if input.space then .to .jump
  else if !input.left && !input.right then .to .idle
  else .none

/-- Shared body of `handle_input` for Jump and Fall
(src/player/states/jump.rs): an aerial attack is allowed only while the
per-jump guard is still clear. -/
def air_handle_input (input : InputContext) : StateTransition :=
  if !input.has_used_aerial_attack then
    if input.up_arrow then .to .jumpPunch
    else if input.down_arrow then .to .jumpKick
    else .none
  else .none

/-- `PlayerState::handle_input` (src/player/state.rs dispatching into
src/player/states/*.rs), state by state. -/
def handle_input : PlayerStateType → InputContext → StateTransition
  | .idle, input =>
      if input.up_arrow then .to .punch
      else if input.down_arrow then .to .kick
      else if input.space then .to .jump
      else if input.left || input.right then
        if input.shift then .to .idleToWalk else .to .idleToRun
      else .none
  | .idleToWalk, input => movement_handle_input input
  | .idleToRun, input => movement_handle_input input
  | .walk, input => movement_handle_input input
  | .run, input => movement_handle_input input
  | .jump, input => air_handle_input input
  | .fall, input => air_handle_input input
  | .land, _ => .none
  | .punch, input =>
      if input.up_arrow then
        if input.total_frames / 2 ≤ input.current_frame then
          .queueCombo .punchCombo
        else .none
      else .none
  | .punchCombo, input =>
      if input.down_arrow then
        if input.total_frames / 2 ≤ input.current_frame then
          .queueCombo .punchKickCombo
        else .none
      else .none
  | .kick, input =>
      if input.down_arrow then
        if input.total_frames / 2 ≤ input.current_frame then
          .queueCombo .kickCombo
        else .none
      else .none
  | .kickCombo, _ => .none
  | .punchKickCombo, _ => .none
  | .jumpPunch, _ => .none
  | .jumpKick, _ => .none
  | .defeat, _ => .none

/-- `PlayerState::update` (src/player/state.rs dispatching into
src/player/states/*.rs), state by state. -/
def update : PlayerStateType → UpdateContext → StateTransition
  | .idle, _ => .none
  | .idleToWalk, ctx => if ctx.animation_finished then .to .walk else .none
  | .idleToRun, ctx => if ctx.animation_finished then .to .run else .none
  | .walk, _ => .none
  | .run, _ => .none
  | .jump, ctx => if ctx.velocity_y ≤ 0 then .to .fall else .none
  | .fall, ctx => if ctx.is_at_ground then .to .land else .none
  | .land, ctx => if ctx.animation_finished then .to .idle else .none
  | .punch, ctx => if ctx.animation_finished then .to .idle else .none
  | .punchCombo, ctx => if ctx.animation_finished then .to .idle else .none
  | .kick, ctx => if ctx.animation_finished then .to .idle else .none
  | .kickCombo, ctx => if ctx.animation_finished then .to .idle else .none
  | .punchKickCombo, ctx => if ctx.animation_finished then .to .idle else .none
  | .jumpPunch, ctx =>
      if ctx.animation_finished then
        if !ctx.is_at_ground then .to .fall else .to .land
      else .none
  | .jumpKick, ctx =>
      if ctx.animation_finished then
        if !ctx.is_at_ground then .to .fall else .to .land
      else .none
  | .defeat, _ => .none

/-- `PlayerState::get_physics_config`, values from src/player/states/*.rs. -/
def get_physics_config : PlayerStateType → PhysicsConfig
  | .idle => ⟨0, false, false, false⟩
  | .idleToWalk => ⟨200, false, false, false⟩
  | .idleToRun => ⟨400, false, false, false⟩
  | .walk => ⟨200, false, false, false⟩
  | .run => ⟨600, false, false, false⟩
  | .jump => ⟨0, true, true, false⟩
  | .fall => ⟨0, true, true, false⟩
  | .land => ⟨0, false, false, true⟩
  | .punch => ⟨0, false, false, true⟩
  | .punchCombo => ⟨0, false, false, true⟩
  | .kick => ⟨0, false, false, true⟩
  | .kickCombo => ⟨0, false, false, true⟩
  | .punchKickCombo => ⟨0, false, false, true⟩
  | .jumpPunch => ⟨0, true, false, false⟩
  | .jumpKick => ⟨0, true, false, false⟩
  | .defeat => ⟨0, false, false, true⟩

/-- `PlayerState::is_attacking`: true exactly for the seven attack variants
(overridden to true in punch.rs, kick.rs, combo.rs, aerial.rs). -/
def is_attacking : PlayerStateType → Bool
  | .punch => true
  | .punchCombo => true
  | .kick => true
  | .kickCombo => true
  | .punchKickCombo => true
  | .jumpPunch => true
  | .jumpKick => true
  | _ => false

/-- `PlayerState::get_damage` (src/player/states/*.rs). -/
def get_damage : PlayerStateType → Int
  | .punch => 2
  | .punchCombo => 2
  | .kick => 3
  | .kickCombo => 3
  | .punchKickCombo => 3
  | .jumpPunch => 6
  | .jumpKick => 6
  | _ => 0

/-- `PlayerState::locks_input` (src/player/state.rs): delegates to the physics
config's `locks_movement`. -/
def locks_input (s : PlayerStateType) : Bool :=
  (get_physics_config s).locks_movement

/-- The two aerial attack states. -/
def is_aerial : PlayerStateType → Bool
  | .jumpPunch => true
  | .jumpKick => true
  | _ => false

/-- A Bevy `Timer` in `TimerMode::Once`, reduced to what the game reads from
it: elapsed time and duration.  `tick` accumulates the frame delta and
`is_finished` compares against the duration, matching Bevy's semantics for a
once-timer (Bevy clamps `elapsed` at `duration`, which does not change the
truth value of `is_finished` for nonnegative deltas). -/
structure TimerQ where
  elapsed : ℚ
  duration : ℚ
deriving DecidableEq, Repr

/-- Timer tick: accumulate the frame delta. -/
def TimerQ.tickBy (t : TimerQ) (dt : ℚ) : TimerQ :=
  { t with elapsed := t.elapsed + dt }

/-- Timer query: has the once-timer finished? -/
def TimerQ.isFinished (t : TimerQ) : Bool :=
  decide (t.duration ≤ t.elapsed)

/-- Timer reset: elapsed time back to zero. -/
def TimerQ.resetT (t : TimerQ) : TimerQ :=
  { t with elapsed := 0 }

/-- `ComboWindow` component (src/player/components.rs). -/
structure ComboWindow where
  timer : TimerQ
  last_attack : Option PlayerStateType
  queued_combo : Option PlayerStateType
deriving DecidableEq, Repr

/-- `JumpPhysics` component (src/player/components.rs). -/
structure JumpPhysics where
  velocity_y : ℚ
  ground_y : ℚ
  jump_force : ℚ
  has_used_aerial_attack : Bool
deriving DecidableEq, Repr

/-- The keyboard snapshot read by `player_input_system`: held A/D/shift and
just-pressed space/up/down. -/
structure Keys where
  a : Bool
  d : Bool
  shiftHeld : Bool
  space : Bool
  up : Bool
  down : Bool
deriving DecidableEq, Repr

/-- Applying a `handle_input` result inside `player_input_system`
(src/player/systems.rs lines 102-125): a `To` transition replaces the state
(resetting the combo window and recording `last_attack` when the new state is
an attack), a `QueueCombo` sets `queued_combo` only while the combo window
timer has not finished, and `None` leaves everything unchanged.  The returned
Bool records whether the state component was written (which is what triggers
Bevy's `Changed<PlayerState>` filter). -/
def apply_input_transition (st : PlayerStateType) (cw : ComboWindow) :
    StateTransition → PlayerStateType × ComboWindow × Bool
  | .to t =>
      (t,
       if is_attacking t then
         { cw with last_attack := some t, timer := cw.timer.resetT }
       else cw,
       true)
  | .queueCombo c =>
      (st,
       if !cw.timer.isFinished then { cw with queued_combo := some c } else cw,
       false)
  | .none => (st, cw, false)

/-- `player_input_system` (src/player/systems.rs lines 46-126): frozen while
the game-over flag is set; ticks the combo window timer; builds the
`InputContext`; when the current state locks input, only up/down combo inputs
pass through and only while the combo window is still open; then dispatches to
`handle_input` and applies the result.  Returns the new state, the new combo
window, and whether the state component was written. -/
def player_input_system (game_over : Bool) (st : PlayerStateType)
    (jp : JumpPhysics) (cw : ComboWindow) (current_frame total_frames : Nat)
    (keys : Keys) (dt : ℚ) : PlayerStateType × ComboWindow × Bool :=
  if game_over then (st, cw, false)
  else
    let cw1 := { cw with timer := cw.timer.tickBy dt }
    let input : InputContext :=
      { left := keys.a, right := keys.d, shift := keys.shiftHeld,
        space := keys.space, up_arrow := keys.up, down_arrow := keys.down,
        has_used_aerial_attack := jp.has_used_aerial_attack,
        current_frame := current_frame, total_frames := total_frames }
    if locks_input st &&
        !((input.up_arrow || input.down_arrow) && !cw1.timer.isFinished) then
      (st, cw1, false)
    else
      apply_input_transition st cw1 (handle_input st input)

/-- Applying an `update` result inside `player_state_update_system`
(src/player/systems.rs lines 153-167): a `To` transition is overridden by a
queued combo exactly when the animation finished this tick and a combo is
queued, in which case the queued combo is consumed, recorded as `last_attack`,
and the combo timer reset; otherwise the reported transition is applied
as-is.  The Bool records whether the state component was written. -/
def apply_update_transition (st : PlayerStateType) (cw : ComboWindow)
    (animation_finished : Bool) :
    StateTransition → PlayerStateType × ComboWindow × Bool
  | .to next =>
      match animation_finished, cw.queued_combo with
      | true, some c =>
          (c,
           { cw with queued_combo := Option.none, last_attack := some c,
                     timer := cw.timer.resetT },
           true)
      | true, Option.none => (next, cw, true)
      | false, _ => (next, cw, true)
  | .queueCombo _ => (st, cw, false)
  | .none => (st, cw, false)

/-- `player_state_update_system` (src/player/systems.rs lines 132-169),
for one player: dispatch to the state's `update` and apply the result with the
queued-combo override. -/
def player_state_update_system (st : PlayerStateType) (cw : ComboWindow)
    (ctx : UpdateContext) : PlayerStateType × ComboWindow × Bool :=
  apply_update_transition st cw ctx.animation_finished (update st ctx)

/-- `initialize_jump_physics` (src/player/systems.rs lines 174-199): runs only
on a tick where the state component was written (`Changed<PlayerState>`,
modelled by the `changed` flag).  Entering Jump captures the ground height,
launches with `jump_force` and clears the aerial-attack guard; entering Fall
zeroes the vertical velocity; entering JumpPunch/JumpKick sets the guard;
every other state leaves the component untouched. -/
def initialize_jump_physics (changed : Bool) (st : PlayerStateType) (y : ℚ)
    (jp : JumpPhysics) : JumpPhysics :=
  if changed then
    match st with
    | .jump =>
        { jp with ground_y := y, velocity_y := jp.jump_force,
                  has_used_aerial_attack := false }
    | .fall => { jp with velocity_y := 0 }
    | .jumpPunch => { jp with has_used_aerial_attack := true }
    | .jumpKick => { jp with has_used_aerial_attack := true }
    | _ => jp
  else jp

/-- The player-side state read and written by the per-tick state-machine
pipeline: current state variant, combo window, jump physics, and a pending
change marker.  `changed` records whether the update phase wrote the state
component this tick; `initialize_jump_physics` and
`clear_hit_tracking_on_state_change` run right after next tick's input phase
and their `Changed<PlayerState>` filter sees exactly the writes made since
they last ran, i.e. last tick's update-phase write plus this tick's
input-phase write. -/
structure PlayerM where
  state : PlayerStateType
  combo : ComboWindow
  jp : JumpPhysics
  changed : Bool
deriving DecidableEq, Repr

/-- The per-tick environment supplied by the external collaborators (keyboard,
time, sprite/animation bookkeeping, transforms): the game-over flag, the key
snapshot, the sprite atlas frame index and the animation indices' last frame,
whether the animation timer fired this tick, the frame delta, and the player's
current vertical position. -/
structure TickEnv where
  game_over : Bool
  keys : Keys
  frame : Nat
  indices_last : Nat
  timer_just_finished : Bool
  dt : ℚ
  y : ℚ
deriving DecidableEq, Repr

/-- The input phase of one tick: `player_input_system` applied to the machine
state and the tick environment (`total_frames = indices.last + 1` as computed
in src/player/systems.rs line 72). -/
def input_phase (m : PlayerM) (env : TickEnv) :
    PlayerStateType × ComboWindow × Bool :=
  player_input_system env.game_over m.state m.jp m.combo env.frame
    (env.indices_last + 1) env.keys env.dt

/-- The jump-physics component after the tick's `initialize_jump_physics`
run: the change edge it sees accumulates last tick's update-phase write
(`m.changed`) and this tick's input-phase write. -/
def tick_jp (m : PlayerM) (env : TickEnv) : JumpPhysics :=
  initialize_jump_physics (m.changed || (input_phase m env).2.2)
    (input_phase m env).1 env.y m.jp

/-- The `UpdateContext` built by `player_state_update_system` this tick:
`animation_finished` is `atlas.index == indices.last && timer.just_finished`
(src/player/systems.rs lines 139-143), `is_at_ground` is
`y <= ground_y + 1.0`, and the vertical velocity is read from the
already-initialized jump physics (the init system runs first in the chain). -/
def tick_ctx (m : PlayerM) (env : TickEnv) : UpdateContext :=
  { animation_finished := (env.frame == env.indices_last) && env.timer_just_finished,
    is_at_ground := decide (env.y ≤ (tick_jp m env).ground_y + 1),
    velocity_y := (tick_jp m env).velocity_y }

/-- One tick of the player state-machine pipeline, in the source's
`.chain()` order (src/main.rs lines 42-47): `player_input_system`, then
`initialize_jump_physics` on the accumulated change edge, then
`player_state_update_system`. -/
def tick (m : PlayerM) (env : TickEnv) : PlayerM :=
  { state := (player_state_update_system (input_phase m env).1
      (input_phase m env).2.1 (tick_ctx m env)).1,
    combo := (player_state_update_system (input_phase m env).1
      (input_phase m env).2.1 (tick_ctx m env)).2.1,
    jp := tick_jp m env,
    changed := (player_state_update_system (input_phase m env).1
      (input_phase m env).2.1 (tick_ctx m env)).2.2 }

/-- Iterating the tick pipeline over a list of tick environments. -/
def runTicks (m : PlayerM) : List TickEnv → PlayerM
  | [] => m
  | env :: envs => runTicks (tick m env) envs

/-- The tick's input phase moves the player into an aerial attack state. -/
def entersAerial (m : PlayerM) (env : TickEnv) : Prop :=
  is_aerial (input_phase m env).1 = true ∧ is_aerial m.state = false

/-- The tick's input phase moves the player into the Jump state. -/
def entersJump (m : PlayerM) (env : TickEnv) : Prop :=
  (input_phase m env).1 = .jump ∧ m.state ≠ .jump

instance (m : PlayerM) (env : TickEnv) : Decidable (entersAerial m env) :=
  inferInstanceAs (Decidable (And _ _))

instance (m : PlayerM) (env : TickEnv) : Decidable (entersJump m env) :=
  inferInstanceAs (Decidable (And _ _))

/-- Reachability invariant of the pipeline: a queued combo is always one of
the three combo follow-ups (the only values ever passed to `QueueCombo` in
src/player/states/punch.rs and kick.rs), and a pending update-phase write
never leaves the player in Jump or an aerial state (no state's `update`
returns those). -/
def Inv (m : PlayerM) : Prop :=
  (∀ c, m.combo.queued_combo = some c →
      c = .punchCombo ∨ c = .kickCombo ∨ c = .punchKickCombo) ∧
  (m.changed = true → m.state ≠ .jump)

/-- `AnimationIndices` component (src/common/components.rs usage): first and
last frame of the current sprite sheet. -/
structure AnimationIndices where
  first : Nat
  last : Nat
deriving DecidableEq, Repr

/-- Facing direction component (src/common/components.rs). -/
inductive Direction where
  | none
  | left
  | right
deriving DecidableEq, Repr

/-- `Hitbox` component (src/combat/components.rs): offset from the owner,
size, and whether it is currently live. -/
structure Hitbox where
  offset : ℚ × ℚ
  size : ℚ × ℚ
  active : Bool
deriving DecidableEq, Repr

/-- Hitbox offset in front of the player along its facing direction
(src/main.rs lines 461-465). -/
def facing_offset : Direction → ℚ × ℚ
  | .right => (80, 0)
  | .left => (-80, 0)
  | .none => (0, 0)

/-- Hitbox size per attack type (src/main.rs lines 468-476). -/
def attack_hitbox_size : PlayerStateType → ℚ × ℚ
  | .punch => (60, 40)
  | .punchCombo => (60, 40)
  | .kick => (80, 50)
  | .kickCombo => (80, 50)
  | .punchKickCombo => (80, 50)
  | .jumpPunch => (50, 50)
  | .jumpKick => (70, 60)
  | _ => (0, 0)

/-- `update_attack_hitboxes` (src/main.rs lines 433-479) for the player:
outside attacking states the hitbox is deactivated and otherwise untouched;
in an attacking state the hitbox is live exactly during the middle third of
the animation range (`first + total/3 ..= first + 2*total/3` with
`total = last - first`, integer division), offset 80 units toward the facing
direction, with a per-attack size.  The source reads the frame from the sprite
atlas, which is always present on the player entity spawned in `setup`. -/
def update_attack_hitboxes (st : PlayerStateType) (frame : Nat)
    (indices : AnimationIndices) (dir : Direction) (hb : Hitbox) : Hitbox :=
  if !is_attacking st then { hb with active := false }
  else
    let total_frames := indices.last - indices.first
    let mid_start := indices.first + total_frames / 3
    let mid_end := indices.first + 2 * total_frames / 3
    { offset := facing_offset dir, size := attack_hitbox_size st,
      active := decide (mid_start ≤ frame) && decide (frame ≤ mid_end) }

/-- `aabb_collision` (src/main.rs lines 481-488): strict axis-aligned box
overlap on centers and sizes. -/
def aabb_collision (pos1 size1 pos2 size2 : ℚ × ℚ) : Bool :=
  decide (pos1.1 - size1.1 / 2 < pos2.1 + size2.1 / 2) &&
  decide (pos2.1 - size2.1 / 2 < pos1.1 + size1.1 / 2) &&
  decide (pos1.2 - size1.2 / 2 < pos2.2 + size2.2 / 2) &&
  decide (pos2.2 - size2.2 / 2 < pos1.2 + size1.2 / 2)

/-- `DamageEvent` (src/combat/messages.rs): attacker and target entity ids
and the damage amount. -/
structure DamageEvent where
  attacker : Nat
  target : Nat
  damage : Int
deriving DecidableEq, Repr

/-- `clear_hit_tracking_on_state_change` (src/player/systems.rs lines
203-212): on a tick where the state component was written
(`Changed<PlayerState>`), the set of already-struck enemies is emptied iff the
new state is an attacking state; on any other tick the set is untouched. -/
def clear_hit_tracking (changed : Bool) (st : PlayerStateType)
    (ht : Finset Nat) : Finset Nat :=
  if changed && is_attacking st then ∅ else ht

/-- One defender entry seen by `detect_combat_collisions`: entity id,
transform translation (truncated to 2D), and hurt-box size. -/
structure EnemyEntry where
  id : Nat
  pos : ℚ × ℚ
  hurt_size : ℚ × ℚ
deriving DecidableEq, Repr

/-- Loop body of `detect_combat_collisions` (src/main.rs lines 507-528) for a
single defender: skip defenders already recorded for this swing, test the
axis-aligned boxes, and on overlap record the defender and emit a
`DamageEvent`. -/
def detect_step (center hsize : ℚ × ℚ) (player_entity : Nat) (dmg : Int)
    (acc : Finset Nat × List DamageEvent) (en : EnemyEntry) :
    Finset Nat × List DamageEvent :=
  if en.id ∈ acc.1 then acc
  else if aabb_collision center hsize en.pos en.hurt_size then
    (insert en.id acc.1, acc.2 ++ [⟨player_entity, en.id, dmg⟩])
  else acc

/-- `detect_combat_collisions` (src/main.rs lines 490-530) for the player on
one tick: nothing happens while the hitbox is inactive; otherwise every
defender is tested against the hitbox centered at the player position plus the
hitbox offset, with per-swing deduplication through the hit-tracking set. -/
def detect_combat_collisions (player_entity : Nat) (player_pos : ℚ × ℚ)
    (hb : Hitbox) (dmg : Int) (tracking : Finset Nat)
    (enemies : List EnemyEntry) : Finset Nat × List DamageEvent :=
  if !hb.active then (tracking, [])
  else enemies.foldl (detect_step (player_pos + hb.offset) hb.size player_entity dmg)
    (tracking, [])

/-- The per-tick data of one attack swing as seen by
`detect_combat_collisions`: player position, hitbox, and the defenders
present that tick.  The player's state (and hence its damage value) is fixed
for the duration of a swing, so it is a parameter of the run, not of the
tick. -/
structure SwingTick where
  player_pos : ℚ × ℚ
  hitbox : Hitbox
  enemies : List EnemyEntry
deriving DecidableEq, Repr

/-- Iterating `detect_combat_collisions` over the ticks of one swing (between
two state changes nothing else reads or writes the hit-tracking set),
accumulating the emitted damage events. -/
def swing_run (player_entity : Nat) (dmg : Int) (tracking : Finset Nat) :
    List SwingTick → Finset Nat × List DamageEvent
  | [] => (tracking, [])
  | t :: ts =>
      let r := detect_combat_collisions player_entity t.player_pos t.hitbox dmg
        tracking t.enemies
      let rest := swing_run player_entity dmg r.1 ts
      (rest.1, r.2 ++ rest.2)

/-- Number of damage events in a list aimed at a given defender. -/
def countTarget (e : Nat) (l : List DamageEvent) : Nat :=
  (l.filter (fun ev => ev.target = e)).length

/-- A 3D translation (Bevy `Vec3`) over rationals. -/
structure Vec3Q where
  x : ℚ
  y : ℚ
  z : ℚ
deriving DecidableEq, Repr

/-- Componentwise difference of translations. -/
def Vec3Q.sub (a b : Vec3Q) : Vec3Q :=
  ⟨a.x - b.x, a.y - b.y, a.z - b.z⟩

/-- Outcome of processing one `DamageEvent` in `handle_damage_events`: the new
health of the target, which defeat events were raised, and which status
effects were attached (stun and invulnerability carry their timer duration,
knockback its velocity, hit flash its timer duration and flash duration). -/
structure DamageOutcome where
  health : Int
  enemy_defeated : Bool
  player_defeated : Bool
  stunned : Option ℚ
  invulnerable : Option ℚ
  knockback : Option (ℚ × ℚ)
  hit_flash : Option (ℚ × ℚ)
deriving DecidableEq, Repr

/-- Knockback direction computed in `handle_damage_events` (src/main.rs lines
578-587): the normalized vector from attacker to target translation when both
transforms are available, the zero vector otherwise.  Normalizing an f32
vector is not rational arithmetic, so the normalization function is a
parameter; every property proved below holds for all of them. -/
def knockback_dir (normalize : Vec3Q → Vec3Q)
    (attacker_pos target_pos : Option Vec3Q) : ℚ × ℚ :=
  match attacker_pos, target_pos with
  | some a, some t =>
      let d := normalize (Vec3Q.sub t a)
      (d.x, d.y)
  | _, _ => (0, 0)

/-- Processing of a single `DamageEvent` by `handle_damage_events`
(src/main.rs lines 560-634).  A missing target health component skips the
event (`none`).  Otherwise the damage is subtracted.  A target at or below
zero health raises the defeat event for its class and receives no status
effects; a surviving enemy receives Stunned (0.5 s) + Knockback (direction ×
300) + HitFlash (0.3 s); a surviving player receives Invulnerable (1 s) +
Knockback (direction × 500) + HitFlash (0.3 s). -/
def handle_damage_event (normalize : Vec3Q → Vec3Q) (health : Option Int)
    (attacker_pos target_pos : Option Vec3Q) (is_enemy is_player : Bool)
    (dmg : Int) : Option DamageOutcome :=
  match health with
  | Option.none => Option.none
  | some h =>
      let newh := h - dmg
      let knockback_dir : ℚ × ℚ := knockback_dir normalize attacker_pos target_pos
      if newh ≤ 0 then
        some { health := newh, enemy_defeated := is_enemy,
               player_defeated := !is_enemy && is_player,
               stunned := Option.none, invulnerable := Option.none,
               knockback := Option.none, hit_flash := Option.none }
      else if is_enemy then
        some { health := newh, enemy_defeated := false,
               player_defeated := false, stunned := some (1/2),
               invulnerable := Option.none,
               knockback := some (knockback_dir.1 * 300, knockback_dir.2 * 300),
               hit_flash := some (3/10, 3/10) }
      else if is_player then
        some { health := newh, enemy_defeated := false,
               player_defeated := false, stunned := Option.none,
               invulnerable := some 1,
               knockback := some (knockback_dir.1 * 500, knockback_dir.2 * 500),
               hit_flash := some (3/10, 3/10) }
      else
        some { health := newh, enemy_defeated := false,
               player_defeated := false, stunned := Option.none,
               invulnerable := Option.none, knockback := Option.none,
               hit_flash := Option.none }

/-- Squared euclidean length of a 2D vector; `lensq v < 100` is exactly
`v.length() < 10.0` in the source. -/
def lensq (v : ℚ × ℚ) : ℚ :=
  v.1 * v.1 + v.2 * v.2

/-- Grounded test in `apply_knockback` (src/main.rs lines 687-689): an entity
is grounded only if it has a `JumpPhysics` component and its vertical position
is within 1 unit of that component's `ground_y`; an entity without
`JumpPhysics` is never grounded (`map_or(false, ..)`). -/
def knockback_grounded (jp : Option JumpPhysics) (y : ℚ) : Bool :=
  match jp with
  | some j => decide (|y - j.ground_y| < 1)
  | Option.none => false

/-- One tick of `apply_knockback` (src/main.rs lines 679-708) for one entity:
grounded entities are displaced only horizontally, airborne entities on both
axes; then the velocity decays by the factor 0.9, and the component is removed
(`none`) once the decayed velocity's magnitude drops below 10 units. -/
def apply_knockback_tick (jp : Option JumpPhysics) (dt : ℚ) (pos v : ℚ × ℚ) :
    (ℚ × ℚ) × Option (ℚ × ℚ) :=
  let pos1 :=
    if knockback_grounded jp pos.2 then (pos.1 + v.1 * dt, pos.2)
    else (pos.1 + v.1 * dt, pos.2 + v.2 * dt)
  let v1 : ℚ × ℚ := (v.1 * (9/10), v.2 * (9/10))
  (pos1, if lensq v1 < 100 then Option.none else some v1)

/-- Iterating `apply_knockback` over n ticks; once the component is removed
the entity no longer matches the system's query and nothing further happens. -/
def knock_run (jp : Option JumpPhysics) (dt : ℚ) :
    Nat → (ℚ × ℚ) × Option (ℚ × ℚ) → (ℚ × ℚ) × Option (ℚ × ℚ)
  | 0, s => s
  | n + 1, s =>
      match s with
      | (p, Option.none) => (p, Option.none)
      | (p, some v) => knock_run jp dt n (apply_knockback_tick jp dt p v)

/-- `Health` component (src/combat/components.rs). -/
structure Health where
  current : Int
  max : Int
deriving DecidableEq, Repr

/-- The player actor fields touched by `handle_restart`. -/
structure PlayerActor where
  health : Health
  state : PlayerStateType
  position : Vec3Q
  jp : JumpPhysics
  combo : ComboWindow
deriving DecidableEq, Repr

/-- Player health as spawned in `setup` (src/main.rs lines 230-233). -/
def initial_health : Health := ⟨20, 20⟩

/-- Player `JumpPhysics` as spawned in `setup` (src/main.rs lines 248-253). -/
def initial_jump_physics : JumpPhysics := ⟨0, -100, 1000, false⟩

/-- Player `ComboWindow` as spawned in `setup` (src/main.rs lines 243-247):
a fresh 0.5 s once-timer, no last attack, no queued combo. -/
def initial_combo_window : ComboWindow := ⟨⟨0, 1/2⟩, Option.none, Option.none⟩

/-- Player spawn translation from `setup` (src/main.rs line 224). -/
def initial_player_position : Vec3Q := ⟨-200, -200, 1⟩

/-- Player-reset portion of `handle_restart` (src/main.rs lines 848-928): the
reset runs only while the game-over flag is set and the restart key was just
pressed; it restores health to max, state to Idle, the spawn translation, a
fresh combo window, and — of the `JumpPhysics` fields — writes only
`velocity_y := 0` and `has_used_aerial_attack := false`, leaving `ground_y`
and `jump_force` at whatever value they currently hold. -/
def handle_restart (game_over r_just_pressed : Bool) (p : PlayerActor) :
    PlayerActor :=
  if !game_over then p
  else if !r_just_pressed then p
  else
    { health := { p.health with current := p.health.max },
      state := .idle,
      position := ⟨-200, -200, 1⟩,
      jp := { p.jp with velocity_y := 0, has_used_aerial_attack := false },
      combo := { timer := ⟨0, 1/2⟩, last_attack := Option.none,
                 queued_combo := Option.none } }

/-- The component kinds appearing in the spawn bundles of src/main.rs. -/
inductive ComponentKind where
  | spriteC
  | transformC
  | directionC
  | animationIndicesC
  | animationTimerC
  | playerStateC
  | enemyStateC
  | playerMarkerC
  | enemyMarkerC
  | healthC
  | hurtBoxC
  | hitboxC
  | hitTrackingC
  | comboWindowC
  | jumpPhysicsC
deriving DecidableEq, Repr

/-- The component bundle attached to an enemy by `spawn_enemy` (src/main.rs
lines 358-382): no `JumpPhysics` (and no hitbox/hit-tracking/combo window). -/
def spawn_enemy_components : List ComponentKind :=
  [.spriteC, .transformC, .directionC, .animationIndicesC, .animationTimerC,
   .enemyStateC, .enemyMarkerC, .healthC, .hurtBoxC]

/-- The component bundle attached to the player by `setup` (src/main.rs lines
210-254), which does include `JumpPhysics`. -/
def setup_player_components : List ComponentKind :=
  [.spriteC, .transformC, .directionC, .animationIndicesC, .animationTimerC,
   .playerStateC, .playerMarkerC, .healthC, .hurtBoxC, .hitboxC,
   .hitTrackingC, .comboWindowC, .jumpPhysicsC]

/-- C1: in the update phase, if the current state's `update` reports
`To(next)` while the animation finished this tick and `queued_combo = some x`,
then the player transitions to `x` (not `next`), the queued combo is consumed
(`queued_combo` becomes `none`), the combo window timer is reset and
`last_attack` becomes `x`; if no combo is queued or the animation has not
finished, the reported transition `To(next)` is applied as-is. -/
theorem c1_queued_combo_override (st next : PlayerStateType) (cw : ComboWindow)
    (ctx : UpdateContext) (h : update st ctx = .to next) :
    (∀ x, ctx.animation_finished = true → cw.queued_combo = some x →
        player_state_update_system st cw ctx =
          (x, { cw with
                queued_combo := Option.none,
                last_attack := some x,
                timer := cw.timer.resetT }, true)) ∧
    (cw.queued_combo = Option.none ∨ ctx.animation_finished = false →
        (player_state_update_system st cw ctx).1 = next) := by
  unfold player_state_update_system
  rw [h]
  constructor
  · intro x haf hq
    rw [haf]
    unfold apply_update_transition
    rw [hq]
  · rintro (hq | haf)
    · cases haf : ctx.animation_finished <;>
        (unfold apply_update_transition; rw [hq])
    · rw [haf]
      unfold apply_update_transition
      cases cw.queued_combo <;> rfl

/-- Witness for C1: a Punch whose animation finishes with
`queued_combo = PunchCombo` transitions to PunchCombo, not to Idle. -/
theorem c1_queued_combo_override_witness :
    player_state_update_system .punch
        ⟨⟨0, 1/2⟩, some .punch, some .punchCombo⟩ ⟨true, true, 0⟩ =
      (.punchCombo,
       { (⟨⟨0, 1/2⟩, some .punch, some .punchCombo⟩ : ComboWindow) with
         queued_combo := Option.none,
         last_attack := some .punchCombo,
         timer := TimerQ.resetT ⟨0, 1/2⟩ }, true) :=
  (c1_queued_combo_override .punch .idle
      ⟨⟨0, 1/2⟩, some .punch, some .punchCombo⟩ ⟨true, true, 0⟩ rfl).1
    .punchCombo rfl rfl

/-- Concrete input refuting C4 as stated: from Idle with left held and shift
held (and no attack/jump input), `handle_input` returns the walk path
`IdleToWalk`, not the run path `IdleToRun` that the claim asserts for a held
shift. -/
def c4_input : InputContext :=
  ⟨true, false, true, false, false, false, false, 1, 24⟩

/-- Counterexample to C4 as stated: with the run-modifier (shift) held, Idle
transitions to `IdleToWalk`, not `IdleToRun`. -/
theorem c4_counterexample :
    handle_input .idle c4_input = .to .idleToWalk ∧
    handle_input .idle c4_input ≠ .to .idleToRun := by
  constructor
  · rfl
  · intro h
    simp [handle_input, c4_input] at h

/-- C4 amended: from Idle, when a movement key is held and no attack or jump
input is just-pressed, `handle_input` returns the walk path (`IdleToWalk`)
when shift is held and the run path (`IdleToRun`) when shift is not held —
the opposite association from the one claimed. -/
theorem c4_idle_movement_amended (i : InputContext) (hup : i.up_arrow = false)
    (hdown : i.down_arrow = false) (hspace : i.space = false)
    (hmove : i.left = true ∨ i.right = true) :
    handle_input .idle i =
      .to (if i.shift then .idleToWalk else .idleToRun) := by
  have hlr : (i.left || i.right) = true := by
    rcases hmove with h | h <;> simp [h]
  simp only [handle_input, hup, hdown, hspace, hlr, Bool.false_eq_true,
    if_false, if_true]
  cases hs : i.shift <;> simp [hs]

/-- Witness for the amended C4 at a concrete input: left held, shift not
held, no attack or jump input. -/
theorem c4_idle_movement_amended_witness :
    handle_input .idle ⟨true, false, false, false, false, false, false, 0, 24⟩ =
      .to .idleToRun :=
  c4_idle_movement_amended
    ⟨true, false, false, false, false, false, false, 0, 24⟩ rfl rfl rfl
    (Or.inl rfl)

/-- C6: whenever the player's state is not attacking the hitbox is inactive
(and otherwise untouched); while attacking, the hitbox is active exactly when
the frame lies in the middle third of the animation range
(`first + total/3` through `first + 2*total/3`, `total = last - first`), is
offset in front of the player along its facing direction, and has the size
determined by the attack type. -/
theorem c6_hitbox_window (st : PlayerStateType) (frame : Nat)
    (indices : AnimationIndices) (dir : Direction) (hb : Hitbox) :
    (is_attacking st = false →
        update_attack_hitboxes st frame indices dir hb =
          { hb with active := false }) ∧
    (is_attacking st = true →
        ((update_attack_hitboxes st frame indices dir hb).active = true ↔
            indices.first + (indices.last - indices.first) / 3 ≤ frame ∧
            frame ≤ indices.first + 2 * (indices.last - indices.first) / 3) ∧
        (update_attack_hitboxes st frame indices dir hb).offset =
          facing_offset dir ∧
        (update_attack_hitboxes st frame indices dir hb).size =
          attack_hitbox_size st) := by
  constructor
  · intro h
    rw [update_attack_hitboxes, h]
    rfl
  · intro h
    rw [update_attack_hitboxes, h]
    refine ⟨?_, rfl, rfl⟩
    simp

/-- Witness for C6 at concrete inputs: a Punch at frame 5 of range 1..12
(middle third is frames 4..8) has an active hitbox of size 60×40 offset to
the right; Idle is never active. -/
theorem c6_hitbox_window_witness :
    ((update_attack_hitboxes .punch 5 ⟨1, 12⟩ .right
        ⟨(0, 0), (0, 0), false⟩).active = true ↔
      (1 + (12 - 1) / 3 ≤ 5 ∧ 5 ≤ 1 + 2 * (12 - 1) / 3)) ∧
    update_attack_hitboxes .idle 5 ⟨1, 23⟩ .right ⟨(1, 2), (3, 4), true⟩ =
      { (⟨(1, 2), (3, 4), true⟩ : Hitbox) with active := false } :=
  ⟨((c6_hitbox_window .punch 5 ⟨1, 12⟩ .right ⟨(0, 0), (0, 0), false⟩).2
      rfl).1,
   (c6_hitbox_window .idle 5 ⟨1, 23⟩ .right ⟨(1, 2), (3, 4), true⟩).1 rfl⟩

/-- A player configuration exhibiting that the restart entry point does not
restore `ground_y`: its `ground_y` differs from the spawn value. -/
def c9_player : PlayerActor :=
  { health := ⟨5, 20⟩, state := .defeat, position := ⟨3, 4, 1⟩,
    jp := ⟨7, 0, 1000, true⟩,
    combo := ⟨⟨2, 1/2⟩, some .kick, Option.none⟩ }

/-- Counterexample to C9 as stated: `handle_restart` does not write
`ground_y`, so a player whose `ground_y` is 0 keeps it after the reset
instead of returning to the initial value −100. -/
theorem c9_counterexample :
    (handle_restart true true c9_player).jp.ground_y ≠
      initial_jump_physics.ground_y := by
  simp [handle_restart, c9_player, initial_jump_physics]

/-- C9 amended: the reset entry point (run while game-over with the restart
key just pressed) restores health to max, state to Idle, the initial spawn
translation and a fresh combo window with `last_attack` and `queued_combo`
cleared, and of the jump-physics fields restores `velocity_y` to 0 and
`has_used_aerial_attack` to false while leaving `ground_y` and `jump_force`
unchanged (`jump_force` is never written anywhere else, so it still holds its
initial value; `ground_y` retains whatever the last jump captured).  Without
the game-over flag or the key press nothing is touched. -/
theorem c9_restart_amended (p : PlayerActor) :
    (handle_restart true true p).health.current = p.health.max ∧
    (handle_restart true true p).state = .idle ∧
    (handle_restart true true p).position = initial_player_position ∧
    (handle_restart true true p).jp.velocity_y = 0 ∧
    (handle_restart true true p).jp.has_used_aerial_attack = false ∧
    (handle_restart true true p).jp.ground_y = p.jp.ground_y ∧
    (handle_restart true true p).jp.jump_force = p.jp.jump_force ∧
    (handle_restart true true p).combo = initial_combo_window ∧
    (∀ r, handle_restart false r p = p) ∧
    handle_restart true false p = p := by
  refine ⟨rfl, rfl, rfl, rfl, rfl, rfl, rfl, rfl, fun r => rfl, rfl⟩

/-- C10: knockback classifies an entity as grounded only when it has a
`JumpPhysics` component whose `ground_y` is within 1 unit of its vertical
position; an entity without `JumpPhysics` — in particular every enemy, whose
spawn bundle carries none — is always airborne and is displaced on both axes
every knockback tick. -/
theorem c10_enemies_always_airborne :
    (∀ y : ℚ, knockback_grounded Option.none y = false) ∧
    (∀ (j : JumpPhysics) (y : ℚ),
        knockback_grounded (some j) y = true ↔ |y - j.ground_y| < 1) ∧
    (∀ (dt : ℚ) (pos v : ℚ × ℚ),
        (apply_knockback_tick Option.none dt pos v).1 =
          (pos.1 + v.1 * dt, pos.2 + v.2 * dt)) ∧
    ComponentKind.jumpPhysicsC ∉ spawn_enemy_components ∧
    ComponentKind.jumpPhysicsC ∈ setup_player_components := by
  refine ⟨fun y => rfl, fun j y => ?_, fun dt pos v => ?_, by decide, by decide⟩
  · simp [knockback_grounded]
  · simp [apply_knockback_tick, knockback_grounded]

/-- Witness for C10: the initial player jump physics at its own ground height
is grounded, and an entity without jump physics is displaced on both axes. -/
theorem c10_enemies_always_airborne_witness :
    knockback_grounded (some initial_jump_physics) (-100) = true ∧
    (apply_knockback_tick Option.none 1 (0, 0) (3, 4)).1 = (0 + 3 * 1, 0 + 4 * 1) :=
  ⟨(c10_enemies_always_airborne.2.1 initial_jump_physics (-100)).mpr
      (by norm_num [initial_jump_physics]),
   c10_enemies_always_airborne.2.2.1 1 (0, 0) (3, 4)⟩

/-- The knockback direction is the zero vector whenever the attacker's or the
target's transform is unavailable. -/
theorem knockback_dir_zero (normalize : Vec3Q → Vec3Q)
    (attacker_pos target_pos : Option Vec3Q)
    (h : attacker_pos = Option.none ∨ target_pos = Option.none) :
    knockback_dir normalize attacker_pos target_pos = (0, 0) := by
  rcases h with h | h
  · subst h
    cases target_pos <;> rfl
  · subst h
    cases attacker_pos <;> rfl

/-- C5: damage resolution for one event.  A missing target health skips the
event entirely; otherwise the damage is subtracted, a target at or below zero
health raises exactly the defeat event of its class with no status effects,
a surviving enemy receives Stunned(0.5 s) + Knockback(dir × 300) +
HitFlash(0.3 s), a surviving player receives Invulnerable(1 s, strictly
longer than the enemy stun) + Knockback(dir × 500, a strictly larger
multiplier) + HitFlash(0.3 s), and the knockback direction is the zero vector
when either transform is unavailable. -/
theorem c5_damage_resolution (normalize : Vec3Q → Vec3Q)
    (attacker_pos target_pos : Option Vec3Q) (is_enemy is_player : Bool)
    (dmg : Int) :
    (handle_damage_event normalize Option.none attacker_pos target_pos
        is_enemy is_player dmg = Option.none) ∧
    (∀ (h : Int) (out : DamageOutcome),
        handle_damage_event normalize (some h) attacker_pos target_pos
            is_enemy is_player dmg = some out →
        out.health = h - dmg ∧
        (out.health ≤ 0 →
            out.enemy_defeated = is_enemy ∧
            out.player_defeated = (!is_enemy && is_player) ∧
            out.stunned = Option.none ∧ out.invulnerable = Option.none ∧
            out.knockback = Option.none ∧ out.hit_flash = Option.none) ∧
        (0 < out.health → is_enemy = true →
            out.enemy_defeated = false ∧ out.player_defeated = false ∧
            out.stunned = some (1/2) ∧ out.invulnerable = Option.none ∧
            out.knockback = some
              ((knockback_dir normalize attacker_pos target_pos).1 * 300,
               (knockback_dir normalize attacker_pos target_pos).2 * 300) ∧
            out.hit_flash = some (3/10, 3/10)) ∧
        (0 < out.health → is_enemy = false → is_player = true →
            out.enemy_defeated = false ∧ out.player_defeated = false ∧
            out.stunned = Option.none ∧ out.invulnerable = some 1 ∧
            ((1:ℚ) > 1/2) ∧
            out.knockback = some
              ((knockback_dir normalize attacker_pos target_pos).1 * 500,
               (knockback_dir normalize attacker_pos target_pos).2 * 500) ∧
            ((500:ℚ) > 300) ∧
            out.hit_flash = some (3/10, 3/10)) ∧
        ((attacker_pos = Option.none ∨ target_pos = Option.none) →
            out.knockback = Option.none ∨ out.knockback = some (0, 0))) := by
  constructor
  · rfl
  · intro h out hout
    simp only [handle_damage_event] at hout
    split_ifs at hout with h0 h1 h2
    all_goals obtain rfl := Option.some.inj hout
    · exact ⟨rfl, fun _ => ⟨rfl, rfl, rfl, rfl, rfl, rfl⟩,
        fun hpos _ => absurd h0 (not_le.mpr hpos),
        fun hpos _ _ => absurd h0 (not_le.mpr hpos),
        fun _ => Or.inl rfl⟩
    · refine ⟨rfl, fun hle => absurd hle h0,
        fun _ _ => ⟨rfl, rfl, rfl, rfl, rfl, rfl⟩,
        fun _ hfe => absurd (h1.symm.trans hfe) Bool.noConfusion,
        fun hz => Or.inr ?_⟩
      rw [knockback_dir_zero normalize attacker_pos target_pos hz]
      norm_num
    · refine ⟨rfl, fun hle => absurd hle h0,
        fun _ he => absurd he h1,
        fun _ _ _ => ⟨rfl, rfl, rfl, rfl, by norm_num, rfl, by norm_num,
          rfl⟩,
        fun hz => Or.inr ?_⟩
      rw [knockback_dir_zero normalize attacker_pos target_pos hz]
      norm_num
    · exact ⟨rfl, fun hle => absurd hle h0,
        fun _ he => absurd he h1,
        fun _ _ hp => absurd hp h2,
        fun _ => Or.inl rfl⟩

/-- Witness for C5: an enemy at 6 health hit by a kick for 3 survives at 3
health and receives stun, knockback and hit flash; positions missing on both
sides give the zero knockback vector. -/
theorem c5_damage_resolution_witness :
    ∃ out, handle_damage_event id (some 6) Option.none Option.none true false 3 =
        some out ∧
      out.health = 3 ∧ out.stunned = some (1/2) ∧
      out.knockback = some ((0:ℚ), (0:ℚ)) := by
  have hmain := (c5_damage_resolution id Option.none Option.none true false
    3).2 6
  have hout : handle_damage_event id (some 6) Option.none Option.none true
      false 3 =
      some ⟨3, false, false, some (1/2), Option.none, some (0 * 300, 0 * 300),
        some (3/10, 3/10)⟩ := rfl
  refine ⟨_, hout, ?_, ?_, ?_⟩
  · exact (hmain _ hout).1
  · exact ((hmain _ hout).2.2.1 (by norm_num) rfl).2.2.1
  · have := ((hmain _ hout).2.2.1 (by norm_num) rfl).2.2.2.2.1
    rw [this]
    norm_num [knockback_dir]

/-- The squared length of a 2D vector is nonnegative. -/
theorem lensq_nonneg (v : ℚ × ℚ) : 0 ≤ lensq v :=
  add_nonneg (mul_self_nonneg v.1) (mul_self_nonneg v.2)

/-- Scaling a vector by 9/10 scales its squared length by 81/100. -/
theorem lensq_scale (v : ℚ × ℚ) :
    lensq (v.1 * (9/10), v.2 * (9/10)) = lensq v * (81/100) := by
  unfold lensq
  ring

/-- Closed form of the knockback velocity after n ticks: the component is
still present exactly while the squared length has not fallen below 100
(equivalently, the magnitude below 10), and while present the velocity is the
initial velocity scaled by `(9/10)^n` componentwise.  The presence condition
is monotone because the decay factor is below one. -/
theorem knock_run_velocity (jp : Option JumpPhysics) (dt : ℚ) (n : Nat) :
    ∀ p v : ℚ × ℚ,
      (knock_run jp dt n (p, some v)).2 =
        if n = 0 ∨ 100 ≤ lensq v * ((81:ℚ)/100) ^ n then
          some (v.1 * ((9:ℚ)/10) ^ n, v.2 * ((9:ℚ)/10) ^ n)
        else Option.none := by
  induction n with
  | zero =>
      intro p v
      simp [knock_run]
  | succ n ih =>
      intro p v
      have hq1 : ((81:ℚ)/100) ^ n ≤ 1 :=
        pow_le_one₀ (by norm_num) (by norm_num)
      have hsq : lensq (v.1 * (9/10), v.2 * (9/10)) = lensq v * (81/100) :=
        lensq_scale v
      rw [knock_run]
      have hstep : apply_knockback_tick jp dt p v =
          ((apply_knockback_tick jp dt p v).1,
           if lensq (v.1 * (9/10), v.2 * (9/10)) < 100 then Option.none
           else some (v.1 * (9/10), v.2 * (9/10))) := rfl
      rw [hstep]
      by_cases hrem : lensq (v.1 * (9/10), v.2 * (9/10)) < 100
      · rw [if_pos hrem]
        have hrun : ∀ q : ℚ × ℚ,
            knock_run jp dt n (q, Option.none) = (q, Option.none) := by
          intro q
          cases n <;> rfl
        rw [hrun]
        have hcond : ¬(n + 1 = 0 ∨ 100 ≤ lensq v * ((81:ℚ)/100) ^ (n + 1)) := by
          push_neg
          refine ⟨Nat.succ_ne_zero n, ?_⟩
          have h1 : lensq v * ((81:ℚ)/100) ^ (n + 1) =
              lensq v * (81/100) * ((81:ℚ)/100) ^ n := by ring
          have h2 : lensq v * (81/100) * ((81:ℚ)/100) ^ n ≤
              lensq v * (81/100) := by
            have h3 : 0 ≤ lensq v * ((81:ℚ)/100) := by
              have := lensq_nonneg v
              nlinarith
            calc lensq v * (81/100) * ((81:ℚ)/100) ^ n
                ≤ lensq v * (81/100) * 1 :=
                  mul_le_mul_of_nonneg_left hq1 h3
              _ = lensq v * (81/100) := by ring
          rw [h1]
          calc lensq v * (81/100) * ((81:ℚ)/100) ^ n
              ≤ lensq v * (81/100) := h2
            _ = lensq (v.1 * (9/10), v.2 * (9/10)) := hsq.symm
            _ < 100 := hrem
        rw [if_neg hcond]
      · rw [if_neg hrem]
        rw [ih]
        dsimp only
        have hge : (100:ℚ) ≤ lensq v * (81/100) := by
          rw [← hsq]
          exact le_of_not_gt hrem
        rcases Nat.eq_zero_or_pos n with hn | hn
        · subst hn
          rw [if_pos (Or.inl rfl), if_pos (Or.inr (by simpa using hge))]
          norm_num
        · have hiff : (n = 0 ∨ 100 ≤
              lensq (v.1 * (9/10), v.2 * (9/10)) * ((81:ℚ)/100) ^ n) ↔
              (n + 1 = 0 ∨ 100 ≤ lensq v * ((81:ℚ)/100) ^ (n + 1)) := by
            constructor
            · rintro (h | h)
              · exact absurd h (Nat.pos_iff_ne_zero.mp hn)
              · refine Or.inr ?_
                rw [hsq] at h
                calc (100:ℚ) ≤ lensq v * (81/100) * ((81:ℚ)/100) ^ n := h
                  _ = lensq v * ((81:ℚ)/100) ^ (n + 1) := by ring
            · rintro (h | h)
              · exact absurd h (Nat.succ_ne_zero n)
              · refine Or.inr ?_
                rw [hsq]
                calc (100:ℚ) ≤ lensq v * ((81:ℚ)/100) ^ (n + 1) := h
                  _ = lensq v * (81/100) * ((81:ℚ)/100) ^ n := by ring
          by_cases hc : n + 1 = 0 ∨ 100 ≤ lensq v * ((81:ℚ)/100) ^ (n + 1)
          · rw [if_pos (hiff.mpr hc), if_pos hc]
            have e1 : v.1 * (9/10) * ((9:ℚ)/10) ^ n = v.1 * ((9:ℚ)/10) ^ (n + 1) := by
              ring
            have e2 : v.2 * (9/10) * ((9:ℚ)/10) ^ n = v.2 * ((9:ℚ)/10) ^ (n + 1) := by
              ring
            rw [e1, e2]
          · rw [if_neg (fun hh => hc (hiff.mp hh)), if_neg hc]

/-- C7: a Knockback status's velocity is multiplied by 0.9 every decay tick,
so after n ticks it is the initial velocity scaled by `0.9^n` (hence its
magnitude is the initial magnitude times `0.9^n`, stated here through the
squared length scaling by `0.81^n`), and the component is removed at the
first tick at which that magnitude drops below 10 (squared length below 100);
while present, a grounded actor is displaced only horizontally per tick and
an airborne actor on both axes. -/
theorem c7_knockback_decay (jp : Option JumpPhysics) (dt : ℚ) (p v : ℚ × ℚ)
    (n : Nat) :
    (∀ w, (knock_run jp dt n (p, some v)).2 = some w →
        w = (v.1 * ((9:ℚ)/10) ^ n, v.2 * ((9:ℚ)/10) ^ n) ∧
        lensq w = lensq v * ((81:ℚ)/100) ^ n) ∧
    (1 ≤ n →
        ((knock_run jp dt n (p, some v)).2 = Option.none ↔
          lensq v * ((81:ℚ)/100) ^ n < 100)) ∧
    (knockback_grounded jp p.2 = true →
        (apply_knockback_tick jp dt p v).1 = (p.1 + v.1 * dt, p.2)) ∧
    (knockback_grounded jp p.2 = false →
        (apply_knockback_tick jp dt p v).1 =
          (p.1 + v.1 * dt, p.2 + v.2 * dt)) := by
  refine ⟨?_, ?_, ?_, ?_⟩
  · intro w hw
    rw [knock_run_velocity] at hw
    by_cases hc : n = 0 ∨ 100 ≤ lensq v * ((81:ℚ)/100) ^ n
    · rw [if_pos hc] at hw
      obtain rfl := Option.some.inj hw
      refine ⟨rfl, ?_⟩
      have h910 : ((81:ℚ)/100) ^ n = ((9:ℚ)/10) ^ n * ((9:ℚ)/10) ^ n := by
        rw [← mul_pow]
        norm_num
      unfold lensq
      rw [h910]
      ring
    · rw [if_neg hc] at hw
      exact absurd hw (by simp)
  · intro hn
    rw [knock_run_velocity]
    constructor
    · intro hnone
      by_contra hge
      rw [if_pos (Or.inr (le_of_not_gt hge))] at hnone
      exact absurd hnone (by simp)
    · intro hlt
      rw [if_neg ?_]
      push_neg
      exact ⟨by omega, lt_of_not_ge fun hge => absurd hlt (not_lt.mpr hge)⟩
  · intro hg
    unfold apply_knockback_tick
    rw [hg]
    rfl
  · intro hg
    unfold apply_knockback_tick
    rw [hg]
    rfl

/-- Witness for C7: a knockback of velocity (30, 40) (magnitude 50) is still
present after one tick and has been removed after 16 ticks, the first at
which `2500 * 0.81^n` falls below 100; a grounded actor keeps its vertical
position. -/
theorem c7_knockback_decay_witness :
    ((knock_run Option.none 1 16 ((0, 0), some (30, 40))).2 = Option.none) ∧
    (∀ w, (knock_run Option.none 1 15 ((0, 0), some (30, 40))).2 = some w →
        w = (30 * ((9:ℚ)/10) ^ 15, 40 * ((9:ℚ)/10) ^ 15)) ∧
    (apply_knockback_tick (some initial_jump_physics) 1 ((0, -100)) (30, 40)).1 =
      (0 + 30 * 1, -100) := by
  refine ⟨?_, ?_, ?_⟩
  · exact ((c7_knockback_decay Option.none 1 (0, 0) (30, 40) 16).2.1
      (by norm_num)).mpr (by norm_num [lensq])
  · intro w hw
    exact ((c7_knockback_decay Option.none 1 (0, 0) (30, 40) 15).1 w hw).1
  · exact (c7_knockback_decay (some initial_jump_physics) 1 (0, -100)
      (30, 40) 1).2.2.1 (by norm_num [knockback_grounded, initial_jump_physics])

/-- Counting damage events distributes over list append. -/
theorem countTarget_append (e : Nat) (l1 l2 : List DamageEvent) :
    countTarget e (l1 ++ l2) = countTarget e l1 + countTarget e l2 := by
  simp [countTarget, List.filter_append]

/-- A `detect_step` either leaves the accumulator unchanged or records a
previously unseen defender and emits one event aimed at it. -/
theorem detect_step_cases (center hsize : ℚ × ℚ) (pe : Nat) (dmg : Int)
    (acc : Finset Nat × List DamageEvent) (en : EnemyEntry) :
    detect_step center hsize pe dmg acc en = acc ∨
    (en.id ∉ acc.1 ∧ detect_step center hsize pe dmg acc en =
      (insert en.id acc.1, acc.2 ++ [⟨pe, en.id, dmg⟩])) := by
  unfold detect_step
  split_ifs with h1 h2
  · exact Or.inl rfl
  · exact Or.inr ⟨h1, rfl⟩
  · exact Or.inl rfl

/-- Folding `detect_step` over a defender list: a defender already recorded
stays recorded and receives no further events; in any case at most one new
event aims at a given defender, and if one was emitted the defender is
recorded afterwards. -/
theorem detect_fold_facts (center hsize : ℚ × ℚ) (pe : Nat) (dmg : Int)
    (e : Nat) (l : List EnemyEntry) :
    ∀ acc : Finset Nat × List DamageEvent,
      (e ∈ acc.1 → e ∈ (l.foldl (detect_step center hsize pe dmg) acc).1 ∧
        countTarget e (l.foldl (detect_step center hsize pe dmg) acc).2 =
          countTarget e acc.2) ∧
      countTarget e (l.foldl (detect_step center hsize pe dmg) acc).2 ≤
        countTarget e acc.2 + 1 ∧
      (countTarget e acc.2 <
          countTarget e (l.foldl (detect_step center hsize pe dmg) acc).2 →
        e ∈ (l.foldl (detect_step center hsize pe dmg) acc).1) := by
  induction l with
  | nil =>
      intro acc
      refine ⟨fun h => ⟨h, rfl⟩, by simp, fun h => absurd h (by simp)⟩
  | cons en l ih =>
      intro acc
      rw [List.foldl_cons]
      rcases detect_step_cases center hsize pe dmg acc en with hcase |
        ⟨hnotin, hcase⟩
      · rw [hcase]
        exact ih acc
      · rw [hcase]
        have ihacc := ih (insert en.id acc.1, acc.2 ++ [⟨pe, en.id, dmg⟩])
        by_cases he : en.id = e
        · subst he
          have hmem : en.id ∈ (insert en.id acc.1, acc.2 ++
              [(⟨pe, en.id, dmg⟩ : DamageEvent)]).1 :=
            Finset.mem_insert_self _ _
          have hcnt : countTarget en.id (acc.2 ++
              [(⟨pe, en.id, dmg⟩ : DamageEvent)]) =
              countTarget en.id acc.2 + 1 := by
            rw [countTarget_append]
            simp [countTarget]
          refine ⟨fun hin => absurd hin hnotin, ?_, fun _ =>
            (ihacc.1 hmem).1⟩
          have hres := (ihacc.1 hmem).2
          rw [hres, hcnt]
        · have hcnt : countTarget e (acc.2 ++
              [(⟨pe, en.id, dmg⟩ : DamageEvent)]) = countTarget e acc.2 := by
            rw [countTarget_append]
            simp [countTarget, he]
          refine ⟨?_, ?_, ?_⟩
          · intro hin
            obtain ⟨hm, hc⟩ := ihacc.1 (Finset.mem_insert_of_mem hin)
            rw [hc, hcnt] at *
            exact ⟨hm, by rw [hc, hcnt]⟩
          · have h2 := ihacc.2.1
            rw [hcnt] at h2
            exact h2
          · intro hlt
            have h3 := ihacc.2.2
            rw [hcnt] at h3
            exact h3 hlt

/-- One `detect_combat_collisions` call: a defender already in the tracking
set stays there and is never targeted; any defender is targeted at most once,
and a targeted defender ends up in the tracking set. -/
theorem detect_call_facts (pe : Nat) (ppos : ℚ × ℚ) (hb : Hitbox) (dmg : Int)
    (tracking : Finset Nat) (enemies : List EnemyEntry) (e : Nat) :
    (e ∈ tracking →
      e ∈ (detect_combat_collisions pe ppos hb dmg tracking enemies).1 ∧
      countTarget e (detect_combat_collisions pe ppos hb dmg tracking
        enemies).2 = 0) ∧
    countTarget e (detect_combat_collisions pe ppos hb dmg tracking
      enemies).2 ≤ 1 ∧
    (1 ≤ countTarget e (detect_combat_collisions pe ppos hb dmg tracking
        enemies).2 →
      e ∈ (detect_combat_collisions pe ppos hb dmg tracking enemies).1) := by
  unfold detect_combat_collisions
  split_ifs with h
  · exact ⟨fun hin => ⟨hin, rfl⟩, by simp [countTarget],
      fun h1 => absurd h1 (by simp [countTarget])⟩
  · have hf := detect_fold_facts (ppos + hb.offset) hb.size pe dmg e enemies
      (tracking, [])
    have hzero : countTarget e ([] : List DamageEvent) = 0 := rfl
    refine ⟨?_, ?_, ?_⟩
    · intro hin
      obtain ⟨hm, hc⟩ := hf.1 hin
      exact ⟨hm, hc⟩
    · have h2 := hf.2.1
      rw [hzero] at h2
      exact h2
    · intro h1
      apply hf.2.2
      rw [hzero]
      omega

/-- Iterating `detect_combat_collisions` across the ticks of one swing: a
defender already recorded receives no event at all, and any defender receives
at most one event over the whole swing. -/
theorem swing_run_facts (pe : Nat) (dmg : Int) (e : Nat)
    (ticks : List SwingTick) :
    ∀ tr : Finset Nat,
      (e ∈ tr → countTarget e (swing_run pe dmg tr ticks).2 = 0) ∧
      countTarget e (swing_run pe dmg tr ticks).2 ≤ 1 := by
  induction ticks with
  | nil =>
      intro tr
      exact ⟨fun _ => rfl, by simp [swing_run, countTarget]⟩
  | cons t ts ih =>
      intro tr
      rw [swing_run]
      dsimp only
      obtain ⟨hdet1, hdet2, hdet3⟩ :=
        detect_call_facts pe t.player_pos t.hitbox dmg tr t.enemies e
      obtain ⟨ih1, ih2⟩ := ih (detect_combat_collisions pe t.player_pos
        t.hitbox dmg tr t.enemies).1
      constructor
      · intro hin
        obtain ⟨hm, hc⟩ := hdet1 hin
        rw [countTarget_append, hc, ih1 hm]
      · rw [countTarget_append]
        rcases Nat.lt_or_ge (countTarget e (detect_combat_collisions pe
          t.player_pos t.hitbox dmg tr t.enemies).2) 1 with h0 | h1
        · omega
        · have hm := hdet3 h1
          rw [ih1 hm]
          omega

/-- Folding `detect_step` over pairwise-distinct defenders that are all
unseen and all colliding emits exactly one event per defender, in order. -/
theorem detect_fold_all_hit (center hsize : ℚ × ℚ) (pe : Nat) (dmg : Int)
    (l : List EnemyEntry) :
    ∀ acc : Finset Nat × List DamageEvent,
      (∀ x ∈ l, x.id ∉ acc.1) →
      (l.map EnemyEntry.id).Nodup →
      (∀ x ∈ l, aabb_collision center hsize x.pos x.hurt_size = true) →
      (l.foldl (detect_step center hsize pe dmg) acc).2 =
        acc.2 ++ l.map (fun x => ⟨pe, x.id, dmg⟩) := by
  induction l with
  | nil =>
      intro acc _ _ _
      simp
  | cons en l ih =>
      intro acc hnot hnd hcol
      rw [List.foldl_cons]
      have hen : en.id ∉ acc.1 := hnot en (List.mem_cons_self en l)
      have hstep : detect_step center hsize pe dmg acc en =
          (insert en.id acc.1, acc.2 ++ [⟨pe, en.id, dmg⟩]) := by
        unfold detect_step
        rw [if_neg hen, if_pos (hcol en (List.mem_cons_self en l))]
      rw [hstep]
      rw [List.map_cons] at hnd
      obtain ⟨hhead, htail⟩ := List.nodup_cons.mp hnd
      have hnot2 : ∀ x ∈ l, x.id ∉ (insert en.id acc.1 : Finset Nat) := by
        intro x hx hmem
        rcases Finset.mem_insert.mp hmem with heq | hmem2
        · exact hhead (heq ▸ List.mem_map_of_mem EnemyEntry.id hx)
        · exact hnot x (List.mem_cons_of_mem en hx) hmem2
      have hrec := ih (insert en.id acc.1, acc.2 ++ [⟨pe, en.id, dmg⟩]) hnot2
        htail (fun x hx => hcol x (List.mem_cons_of_mem en hx))
      rw [hrec]
      simp

/-- C2: the hit-tracking set is cleared exactly on a state-change tick whose
new state is attacking; within one swing (iterated detections between two
state changes, starting from the cleared set) each defender is targeted by at
most one `DamageEvent` no matter how many ticks it overlaps the hitbox; and
one swing can still hit any number of distinct defenders once each. -/
theorem c2_hit_dedup :
    (∀ (st : PlayerStateType) (ht : Finset Nat),
        clear_hit_tracking true st ht = if is_attacking st then ∅ else ht) ∧
    (∀ (changed : Bool) (st : PlayerStateType) (ht : Finset Nat),
        changed = false ∨ is_attacking st = false →
        clear_hit_tracking changed st ht = ht) ∧
    (∀ (pe : Nat) (dmg : Int) (ticks : List SwingTick) (e : Nat),
        countTarget e (swing_run pe dmg ∅ ticks).2 ≤ 1) ∧
    (∀ (pe : Nat) (ppos : ℚ × ℚ) (hb : Hitbox) (dmg : Int)
        (enemies : List EnemyEntry),
        hb.active = true →
        (enemies.map EnemyEntry.id).Nodup →
        (∀ x ∈ enemies,
            aabb_collision (ppos + hb.offset) hb.size x.pos x.hurt_size =
              true) →
        (detect_combat_collisions pe ppos hb dmg ∅ enemies).2 =
          enemies.map (fun x => ⟨pe, x.id, dmg⟩)) := by
  refine ⟨?_, ?_, ?_, ?_⟩
  · intro st ht
    unfold clear_hit_tracking
    cases is_attacking st <;> simp
  · rintro changed st ht (h | h) <;> simp [clear_hit_tracking, h]
  · intro pe dmg ticks e
    exact (swing_run_facts pe dmg e ticks ∅).2
  · intro pe ppos hb dmg enemies ha hnd hcol
    unfold detect_combat_collisions
    rw [ha]
    simp only [Bool.not_true, Bool.false_eq_true, if_false]
    rw [detect_fold_all_hit (ppos + hb.offset) hb.size pe dmg enemies
      (∅, []) (fun x _ hmem => absurd hmem (Finset.not_mem_empty x.id)) hnd
      hcol]
    simp

/-- Witness for C2: one defender overlapping the active hitbox on two
consecutive ticks of the same swing is hit exactly once; the nodup/colliding
conjunct applied to a singleton defender list yields that single event. -/
theorem c2_hit_dedup_witness :
    countTarget 5 (swing_run 1 2 ∅
      [⟨(0, 0), ⟨(0, 0), (10, 10), true⟩, [⟨5, (0, 0), (8, 8)⟩]⟩,
       ⟨(0, 0), ⟨(0, 0), (10, 10), true⟩, [⟨5, (0, 0), (8, 8)⟩]⟩]).2 ≤ 1 ∧
    (detect_combat_collisions 1 (0, 0) ⟨(0, 0), (10, 10), true⟩ 2 ∅
      [⟨5, (0, 0), (8, 8)⟩]).2 = [⟨1, 5, 2⟩] :=
  ⟨c2_hit_dedup.2.2.1 1 2
      [⟨(0, 0), ⟨(0, 0), (10, 10), true⟩, [⟨5, (0, 0), (8, 8)⟩]⟩,
       ⟨(0, 0), ⟨(0, 0), (10, 10), true⟩, [⟨5, (0, 0), (8, 8)⟩]⟩] 5,
   c2_hit_dedup.2.2.2 1 (0, 0) ⟨(0, 0), (10, 10), true⟩ 2
      [⟨5, (0, 0), (8, 8)⟩] rfl (by simp) (by with_unfolding_all decide)⟩

/-- The input phase never moves a player out of Defeat and never writes the
state component while in Defeat (Defeat locks input, and its `handle_input`
returns `None` even on the combo-bypass path). -/
theorem input_phase_defeat (m : PlayerM) (env : TickEnv)
    (h : m.state = .defeat) :
    (input_phase m env).1 = .defeat ∧ (input_phase m env).2.2 = false := by
  unfold input_phase player_input_system
  rw [h]
  dsimp only
  split_ifs <;> exact ⟨rfl, rfl⟩

/-- One full tick never moves a player out of Defeat: the input phase returns
`None` and the update phase returns `None`, so the state survives both
phases. -/
theorem tick_defeat (m : PlayerM) (env : TickEnv) (h : m.state = .defeat) :
    (tick m env).state = .defeat := by
  obtain ⟨h1, _⟩ := input_phase_defeat m env h
  unfold tick
  dsimp only
  rw [h1]
  rfl

/-- C8: Defeat is absorbing.  Its `handle_input` ignores every input context
and its `update` ignores every update context, so no sequence of ticks (any
combination of keys, frame deltas, animation-finished, ground and velocity
conditions) leaves Defeat; the only exit is the external reset entry point,
which forces Idle. -/
theorem c8_defeat_absorbing :
    (∀ i : InputContext, handle_input .defeat i = .none) ∧
    (∀ c : UpdateContext, update .defeat c = .none) ∧
    (∀ (m : PlayerM) (envs : List TickEnv), m.state = .defeat →
        (runTicks m envs).state = .defeat) ∧
    (∀ p : PlayerActor, (handle_restart true true p).state = .idle) := by
  refine ⟨fun i => rfl, fun c => rfl, ?_, fun p => rfl⟩
  intro m envs
  induction envs generalizing m with
  | nil => exact fun h => h
  | cons env envs ih => exact fun h => ih (tick m env) (tick_defeat m env h)

/-- The `InputContext` built by `player_input_system` from the machine state
and the tick environment. -/
def built_input (m : PlayerM) (env : TickEnv) : InputContext :=
  { left := env.keys.a, right := env.keys.d, shift := env.keys.shiftHeld,
    space := env.keys.space, up_arrow := env.keys.up,
    down_arrow := env.keys.down,
    has_used_aerial_attack := m.jp.has_used_aerial_attack,
    current_frame := env.frame, total_frames := env.indices_last + 1 }

/-- Unfolding of the input phase: game-over freeze, the input-lock gate (with
the combo-window bypass), and the dispatch to `handle_input`. -/
theorem input_phase_eq (m : PlayerM) (env : TickEnv) :
    input_phase m env =
      if env.game_over then (m.state, m.combo, false)
      else
        if locks_input m.state &&
            !((env.keys.up || env.keys.down) &&
              !(m.combo.timer.tickBy env.dt).isFinished) then
          (m.state, { m.combo with timer := m.combo.timer.tickBy env.dt },
           false)
        else
          apply_input_transition m.state
            { m.combo with timer := m.combo.timer.tickBy env.dt }
            (handle_input m.state (built_input m env)) := rfl

/-- A `To` returned by `movement_handle_input` targets Punch, Kick, Jump or
Idle. -/
theorem movement_to_vals (i : InputContext) (t : PlayerStateType)
    (h : movement_handle_input i = .to t) :
    t = .punch ∨ t = .kick ∨ t = .jump ∨ t = .idle := by
  unfold movement_handle_input at h
  split_ifs at h <;> simp_all

/-- A `To` returned by the shared Jump/Fall input handler targets an aerial
attack and requires the aerial guard to be clear. -/
theorem air_to_vals (i : InputContext) (t : PlayerStateType)
    (h : air_handle_input i = .to t) :
    (t = .jumpPunch ∨ t = .jumpKick) ∧ i.has_used_aerial_attack = false := by
  unfold air_handle_input at h
  split_ifs at h <;> simp_all

/-- Only Jump and Fall can hand out a transition into an aerial attack, and
only while the aerial guard is clear. -/
theorem handle_input_to_aerial (s t : PlayerStateType) (i : InputContext)
    (h : handle_input s i = .to t) (ht : is_aerial t = true) :
    (s = .jump ∨ s = .fall) ∧ i.has_used_aerial_attack = false := by
  cases s with
  | jump => exact ⟨Or.inl rfl, (air_to_vals i t h).2⟩
  | fall => exact ⟨Or.inr rfl, (air_to_vals i t h).2⟩
  | idle =>
      exfalso
      simp only [handle_input] at h
      split_ifs at h <;> cases h <;> simp [is_aerial] at ht
  | idleToWalk =>
      exfalso
      rcases movement_to_vals i t h with h2 | h2 | h2 | h2 <;> subst h2 <;>
        simp [is_aerial] at ht
  | idleToRun =>
      exfalso
      rcases movement_to_vals i t h with h2 | h2 | h2 | h2 <;> subst h2 <;>
        simp [is_aerial] at ht
  | walk =>
      exfalso
      rcases movement_to_vals i t h with h2 | h2 | h2 | h2 <;> subst h2 <;>
        simp [is_aerial] at ht
  | run =>
      exfalso
      rcases movement_to_vals i t h with h2 | h2 | h2 | h2 <;> subst h2 <;>
        simp [is_aerial] at ht
  | land => simp [handle_input] at h
  | punch =>
      exfalso
      simp only [handle_input] at h
      split_ifs at h
  | punchCombo =>
      exfalso
      simp only [handle_input] at h
      split_ifs at h
  | kick =>
      exfalso
      simp only [handle_input] at h
      split_ifs at h
  | kickCombo => simp [handle_input] at h
  | punchKickCombo => simp [handle_input] at h
  | jumpPunch => simp [handle_input] at h
  | jumpKick => simp [handle_input] at h
  | defeat => simp [handle_input] at h

/-- No state's `handle_input` reports a transition into Jump while already in
Jump (only the five ground-locomotion states report Jump). -/
theorem handle_input_to_jump_src (s : PlayerStateType) (i : InputContext)
    (h : handle_input s i = .to .jump) : s ≠ .jump := by
  intro he
  subst he
  rcases (air_to_vals i .jump h).1 with h2 | h2 <;> exact
    PlayerStateType.noConfusion h2

/-- Every `QueueCombo` handed out by any state's `handle_input` carries one of
the three combo follow-ups. -/
theorem handle_input_queue_vals (s : PlayerStateType) (i : InputContext)
    (c : PlayerStateType) (h : handle_input s i = .queueCombo c) :
    c = .punchCombo ∨ c = .kickCombo ∨ c = .punchKickCombo := by
  cases s <;>
    simp only [handle_input, movement_handle_input, air_handle_input] at h <;>
    first
      | (split_ifs at h <;> simp_all)
      | simp_all

/-- Every `To` reported by any state's `update` targets Idle, Walk, Run, Fall
or Land — never Jump and never an aerial attack. -/
theorem update_to_vals (s : PlayerStateType) (ctx : UpdateContext)
    (t : PlayerStateType) (h : update s ctx = .to t) :
    t = .idle ∨ t = .walk ∨ t = .run ∨ t = .fall ∨ t = .land := by
  cases s <;> simp only [update] at h <;>
    first
      | (split_ifs at h <;> simp_all)
      | simp_all

/-- If the input phase did not write the state component, the state is
unchanged. -/
theorem input_phase_cases (m : PlayerM) (env : TickEnv) :
    ((input_phase m env).1 = m.state ∧ (input_phase m env).2.2 = false) ∨
    (∃ t, handle_input m.state (built_input m env) = .to t ∧
      (input_phase m env).1 = t ∧ (input_phase m env).2.2 = true) := by
  rw [input_phase_eq]
  by_cases h1 : env.game_over = true
  · rw [if_pos h1]
    exact Or.inl ⟨rfl, rfl⟩
  · rw [if_neg h1]
    by_cases h2 : (locks_input m.state &&
        !((env.keys.up || env.keys.down) &&
          !(m.combo.timer.tickBy env.dt).isFinished)) = true
    · rw [if_pos h2]
      exact Or.inl ⟨rfl, rfl⟩
    · rw [if_neg h2]
      cases hh : handle_input m.state (built_input m env)
      · exact Or.inl ⟨rfl, rfl⟩
      · rename_i t
        exact Or.inr ⟨t, rfl, rfl, rfl⟩
      · exact Or.inl ⟨rfl, rfl⟩

/-- If the input phase did not write the state component, the state is
unchanged. -/
theorem input_phase_not_written (m : PlayerM) (env : TickEnv)
    (h : (input_phase m env).2.2 = false) :
    (input_phase m env).1 = m.state := by
  rcases input_phase_cases m env with ⟨h1, _⟩ | ⟨t, _, _, h2⟩
  · exact h1
  · rw [h2] at h
    exact absurd h (by simp)

/-- If the input phase wrote the state component, the write came from a `To`
transition handed out by the current state's `handle_input` on the built
input context. -/
theorem input_phase_written (m : PlayerM) (env : TickEnv)
    (h : (input_phase m env).2.2 = true) :
    handle_input m.state (built_input m env) = .to (input_phase m env).1 := by
  rcases input_phase_cases m env with ⟨_, h2⟩ | ⟨t, hh, h1, _⟩
  · rw [h2] at h
    exact absurd h (by simp)
  · rw [h1]
    exact hh

/-- A combo queued after the input phase was either already queued before the
tick or was handed out as a `QueueCombo` by the current state's
`handle_input` this tick. -/
theorem input_phase_queued (m : PlayerM) (env : TickEnv) (c : PlayerStateType)
    (h : (input_phase m env).2.1.queued_combo = some c) :
    m.combo.queued_combo = some c ∨
    handle_input m.state (built_input m env) = .queueCombo c := by
  rw [input_phase_eq] at h
  by_cases h1 : env.game_over = true
  · rw [if_pos h1] at h
    exact Or.inl h
  · rw [if_neg h1] at h
    by_cases h2 : (locks_input m.state &&
        !((env.keys.up || env.keys.down) &&
          !(m.combo.timer.tickBy env.dt).isFinished)) = true
    · rw [if_pos h2] at h
      exact Or.inl h
    · rw [if_neg h2] at h
      cases hh : handle_input m.state (built_input m env)
      · rw [hh] at h
        exact Or.inl h
      · rw [hh] at h
        simp only [apply_input_transition] at h
        split_ifs at h
        · exact Or.inl h
        · exact Or.inl h
      · rename_i c2
        rw [hh] at h
        simp only [apply_input_transition] at h
        split_ifs at h
        · have h3 : some c2 = some c := h
          exact Or.inr (by rw [Option.some.inj h3])
        · exact Or.inl h

/-- Characterization of the update phase: the queued combo is preserved or
consumed, and a state write targets either the `To` state reported by
`update` or the previously queued combo. -/
theorem upd_char (st : PlayerStateType) (cw : ComboWindow)
    (ctx : UpdateContext) :
    ((player_state_update_system st cw ctx).2.1.queued_combo =
        cw.queued_combo ∨
      (player_state_update_system st cw ctx).2.1.queued_combo =
        Option.none) ∧
    ((player_state_update_system st cw ctx).2.2 = true →
      ∃ next, update st ctx = .to next ∧
        ((player_state_update_system st cw ctx).1 = next ∨
         cw.queued_combo = some (player_state_update_system st cw ctx).1)) := by
  unfold player_state_update_system
  cases hu : update st ctx
  · exact ⟨Or.inl rfl, fun h2 => absurd h2 (by simp [apply_update_transition])⟩
  · rename_i t
    simp only [apply_update_transition]
    cases haf : ctx.animation_finished
    · exact ⟨Or.inl rfl, fun _ => ⟨t, rfl, Or.inl rfl⟩⟩
    · cases hq : cw.queued_combo
      · exact ⟨Or.inl hq, fun _ => ⟨t, rfl, Or.inl rfl⟩⟩
      · exact ⟨Or.inr rfl, fun _ => ⟨t, rfl, Or.inr rfl⟩⟩
  · exact ⟨Or.inl rfl, fun h2 => absurd h2 (by simp [apply_update_transition])⟩

/-- The tick pipeline preserves the reachability invariant. -/
theorem inv_tick (m : PlayerM) (env : TickEnv) (h : Inv m) :
    Inv (tick m env) := by
  obtain ⟨hq, hc⟩ := h
  obtain ⟨hqc, hwc⟩ := upd_char (input_phase m env).1 (input_phase m env).2.1
    (tick_ctx m env)
  constructor
  · intro c hc2
    have hc2a : (player_state_update_system (input_phase m env).1
        (input_phase m env).2.1 (tick_ctx m env)).2.1.queued_combo =
        some c := hc2
    rcases hqc with hsame | hnone
    · rw [hsame] at hc2a
      rcases input_phase_queued m env c hc2a with hold | hqueue
      · exact hq c hold
      · exact handle_input_queue_vals m.state (built_input m env) c hqueue
    · rw [hnone] at hc2a
      exact absurd hc2a (by simp)
  · intro h2
    obtain ⟨next, hnext, hcase⟩ := hwc h2
    rcases hcase with hs | hs
    · have hvals := update_to_vals (input_phase m env).1 (tick_ctx m env)
        next hnext
      show (player_state_update_system (input_phase m env).1
        (input_phase m env).2.1 (tick_ctx m env)).1 ≠ .jump
      rw [hs]
      rcases hvals with h3 | h3 | h3 | h3 | h3 <;> subst h3 <;>
        exact PlayerStateType.noConfusion
    · rcases input_phase_queued m env _ hs with hold | hqueue
      · have h3 := hq _ hold
        intro hju
        have hju2 : (player_state_update_system (input_phase m env).1
            (input_phase m env).2.1 (tick_ctx m env)).1 = .jump := hju
        rw [hju2] at h3
        rcases h3 with h3 | h3 | h3 <;> exact PlayerStateType.noConfusion h3
      · have h3 := handle_input_queue_vals m.state (built_input m env) _
          hqueue
        intro hju
        have hju2 : (player_state_update_system (input_phase m env).1
            (input_phase m env).2.1 (tick_ctx m env)).1 = .jump := hju
        rw [hju2] at h3
        rcases h3 with h3 | h3 | h3 <;> exact PlayerStateType.noConfusion h3

/-- An aerial state is JumpPunch or JumpKick. -/
theorem is_aerial_spec (s : PlayerStateType) (h : is_aerial s = true) :
    s = .jumpPunch ∨ s = .jumpKick := by
  cases s <;> simp [is_aerial] at h ⊢

/-- Entering an aerial state through the input phase requires a state write. -/
theorem entersAerial_written (m : PlayerM) (env : TickEnv)
    (h : entersAerial m env) : (input_phase m env).2.2 = true := by
  obtain ⟨h1, h2⟩ := h
  cases hb : (input_phase m env).2.2 with
  | true => rfl
  | false =>
      have hst := input_phase_not_written m env hb
      rw [hst, h2] at h1
      exact Bool.noConfusion h1

/-- Lemma A for the aerial-once argument: a tick whose input phase enters an
aerial attack state ends with the aerial guard set. -/
theorem aerial_entry_flag (m : PlayerM) (env : TickEnv)
    (h : entersAerial m env) :
    (tick m env).jp.has_used_aerial_attack = true := by
  have hw := entersAerial_written m env h
  obtain ⟨h1, _⟩ := h
  show (tick_jp m env).has_used_aerial_attack = true
  unfold tick_jp
  rw [hw, Bool.or_true]
  rcases is_aerial_spec _ h1 with h3 | h3 <;> rw [h3] <;> rfl

/-- Lemma B for the aerial-once argument: a set aerial guard survives any
tick that does not enter Jump through its input phase. -/
theorem flag_persists_tick (m : PlayerM) (env : TickEnv)
    (hf : m.jp.has_used_aerial_attack = true) (hinv : Inv m)
    (hnj : ¬ entersJump m env) :
    (tick m env).jp.has_used_aerial_attack = true := by
  show (tick_jp m env).has_used_aerial_attack = true
  unfold tick_jp
  cases hch : (m.changed || (input_phase m env).2.2) with
  | false => simpa [initialize_jump_physics] using hf
  | true =>
      cases hs1 : (input_phase m env).1
      case jump =>
        exfalso
        cases hw : (input_phase m env).2.2 with
        | true =>
            have hto := input_phase_written m env hw
            rw [hs1] at hto
            exact hnj ⟨hs1, handle_input_to_jump_src m.state
              (built_input m env) hto⟩
        | false =>
            have hst := input_phase_not_written m env hw
            have hmch : m.changed = true := by
              rw [hw, Bool.or_false] at hch
              exact hch
            exact hinv.2 hmch (hst.symm.trans hs1)
      all_goals first | exact hf | rfl

/-- Lemma C for the aerial-once argument: a tick whose input phase enters an
aerial attack state starts with the aerial guard clear. -/
theorem aerial_entry_needs_flag (m : PlayerM) (env : TickEnv)
    (h : entersAerial m env) : m.jp.has_used_aerial_attack = false := by
  have hw := entersAerial_written m env h
  have hto := input_phase_written m env hw
  exact (handle_input_to_aerial m.state ((input_phase m env).1)
    (built_input m env) hto h.1).2

/-- C3: the aerial-attack guard is cleared only on the tick the state changes
to Jump, set only on the tick the state changes to JumpPunch/JumpKick, and
left unchanged by entering Fall or Land; while the guard is set, `handle_input`
in both Jump and Fall never hands out a transition to JumpPunch or JumpKick;
consequently, along any run of the tick pipeline from a state satisfying the
reachability invariant, between two entries into an aerial attack state there
is always an entry into Jump — one jump cycle admits at most one aerial
attack. -/
theorem c3_aerial_attack_once :
    (∀ (y : ℚ) (jp : JumpPhysics),
        (initialize_jump_physics true .jump y jp).has_used_aerial_attack =
          false ∧
        (initialize_jump_physics true .jumpPunch y
          jp).has_used_aerial_attack = true ∧
        (initialize_jump_physics true .jumpKick y jp).has_used_aerial_attack =
          true ∧
        (initialize_jump_physics true .fall y jp).has_used_aerial_attack =
          jp.has_used_aerial_attack ∧
        (initialize_jump_physics true .land y jp).has_used_aerial_attack =
          jp.has_used_aerial_attack) ∧
    (∀ (ch : Bool) (s : PlayerStateType) (y : ℚ) (jp : JumpPhysics),
        (initialize_jump_physics ch s y jp).has_used_aerial_attack = false →
        jp.has_used_aerial_attack = true → ch = true ∧ s = .jump) ∧
    (∀ (ch : Bool) (s : PlayerStateType) (y : ℚ) (jp : JumpPhysics),
        (initialize_jump_physics ch s y jp).has_used_aerial_attack = true →
        jp.has_used_aerial_attack = false →
        ch = true ∧ (s = .jumpPunch ∨ s = .jumpKick)) ∧
    (∀ i : InputContext, i.has_used_aerial_attack = true →
        handle_input .jump i ≠ .to .jumpPunch ∧
        handle_input .jump i ≠ .to .jumpKick ∧
        handle_input .fall i ≠ .to .jumpPunch ∧
        handle_input .fall i ≠ .to .jumpKick) ∧
    (∀ (ms : Nat → PlayerM) (es : Nat → TickEnv),
        Inv (ms 0) → (∀ n, ms (n + 1) = tick (ms n) (es n)) →
        ∀ i j, i < j → entersAerial (ms i) (es i) →
          entersAerial (ms j) (es j) →
          ∃ k, i < k ∧ k ≤ j ∧ entersJump (ms k) (es k)) := by
  refine ⟨?_, ?_, ?_, ?_, ?_⟩
  · intro y jp
    exact ⟨rfl, rfl, rfl, rfl, rfl⟩
  · intro ch s y jp h1 h2
    cases ch <;> cases s <;> simp_all [initialize_jump_physics]
  · intro ch s y jp h1 h2
    cases ch <;> cases s <;> simp_all [initialize_jump_physics]
  · intro i h
    simp [handle_input, air_handle_input, h]
  · intro ms es hinv hms i j hij hi hj
    by_contra hcon
    push_neg at hcon
    have hInvAll : ∀ n, Inv (ms n) := by
      intro n
      induction n with
      | zero => exact hinv
      | succ n ih =>
          rw [hms n]
          exact inv_tick (ms n) (es n) ih
    have hbase : (ms (i + 1)).jp.has_used_aerial_attack = true := by
      rw [hms i]
      exact aerial_entry_flag (ms i) (es i) hi
    have hflag : ∀ n, i + 1 ≤ n → n ≤ j →
        (ms n).jp.has_used_aerial_attack = true := by
      intro n hn
      induction n, hn using Nat.le_induction with
      | base => exact fun _ => hbase
      | succ n hn ih =>
          intro hnj
          have hn_le : n ≤ j := Nat.le_of_succ_le hnj
          have hflagn := ih hn_le
          rw [hms n]
          exact flag_persists_tick (ms n) (es n) hflagn (hInvAll n)
            (hcon n hn hn_le)
    have hfj : (ms j).jp.has_used_aerial_attack = true :=
      hflag j (by omega) (le_refl j)
    have hff := aerial_entry_needs_flag (ms j) (es j) hj
    rw [hfj] at hff
    exact Bool.noConfusion hff

/-- Key snapshot with no key active. -/
def no_keys : Keys := ⟨false, false, false, false, false, false⟩

/-- Concrete tick environments for the aerial-once witness run: jump, aerial
punch, land on animation end, return to idle, jump again, aerial punch
again. -/
def wes : Nat → TickEnv
  | 0 => ⟨false, { no_keys with space := true }, 1, 23, false, 0, -100⟩
  | 1 => ⟨false, { no_keys with up := true }, 1, 26, false, 0, -100⟩
  | 2 => ⟨false, no_keys, 17, 17, true, 0, -100⟩
  | 3 => ⟨false, no_keys, 20, 20, true, 0, -100⟩
  | 4 => ⟨false, { no_keys with space := true }, 1, 23, false, 0, -100⟩
  | _ => ⟨false, { no_keys with up := true }, 1, 26, false, 0, -100⟩

/-- The machine trace of the aerial-once witness run, starting from the
initial player configuration in Idle. -/
def wms : Nat → PlayerM
  | 0 => ⟨.idle, initial_combo_window, initial_jump_physics, false⟩
  | n + 1 => tick (wms n) (wes n)

/-- Witness for C3: in the concrete run, aerial attacks are entered at ticks
1 and 5, and the theorem produces a Jump entry strictly between them. -/
theorem c3_aerial_attack_once_witness :
    ∃ k, 1 < k ∧ k ≤ 5 ∧ entersJump (wms k) (wes k) :=
  c3_aerial_attack_once.2.2.2.2 wms wes
    ⟨fun c hc => by simp [wms, initial_combo_window] at hc,
     fun h => by simp [wms] at h⟩
    (fun n => rfl) 1 5 (by omega)
    (by with_unfolding_all decide) (by with_unfolding_all decide)

/-- Witness for C8: a defeated player stays defeated across a tick in which
every key is pressed and every animation/physics condition fires. -/
theorem c8_defeat_absorbing_witness :
    (runTicks ⟨.defeat, initial_combo_window, initial_jump_physics, false⟩
      [⟨false, ⟨true, true, true, true, true, true⟩, 20, 20, true, 1, -100⟩,
       ⟨true, ⟨true, true, true, true, true, true⟩, 20, 20, true, 1, 0⟩]).state =
      .defeat :=
  c8_defeat_absorbing.2.2.1
    ⟨.defeat, initial_combo_window, initial_jump_physics, false⟩
    [⟨false, ⟨true, true, true, true, true, true⟩, 20, 20, true, 1, -100⟩,
     ⟨true, ⟨true, true, true, true, true, true⟩, 20, 20, true, 1, 0⟩] rfl

end MartialMagicka
